import Mathlib

/-
Shallow embedding of the nestjs-worker library (btwld/nestjs-worker):
the WorkerInstance state machine (src/lib/managers/worker-instance.ts,
delivered here as src/unnamed/part_003), the WorkerPool algorithms
(src/lib/managers/worker-pool.ts), the option defaults
(src/lib/constants/worker.constants.ts) and the configuration validation
(src/lib/config/worker-config.service.ts).

Timers, promises and the worker thread are modelled by explicit state
passing: a pending call is an entry of the pending map; clearing its
deadline timer and deleting the map entry are both modelled by removing
the entry; the settlement of a promise is an explicit HandlerAction
value. Serializable payloads are modelled opaquely as strings.
-/

namespace NestjsWorker

/-- Lifecycle status of a worker instance:
the union type of the private field of WorkerInstance. -/
inductive WorkerStatus where
  | idle
  | busy
  | error
  | terminated
deriving DecidableEq, Repr

/-- The two kinds of pending calls a WorkerInstance registers in its
pendingMessages map: an execute call (resolve fulfills the caller with the
payload, reject fails it) and a ping call (the stored resolve closure
resolves the ping promise with true, the stored reject resolves it with
false). -/
inductive CallKind where
  | execCall
  | pingCall
deriving DecidableEq, Repr

/-- Message types of the wire protocol (WorkerMessage.type in
src/lib/interfaces/worker.interface.ts). -/
inductive MsgType where
  | execute
  | result
  | error
  | ping
  | pong
deriving DecidableEq, Repr

/-- The error payload of a WorkerMessage: message, stack and name are all
optional on the wire. -/
structure WorkerErrorInfo where
  message : Option String
  stack : Option String
  name : Option String
deriving DecidableEq, Repr

/-- A wire message (WorkerMessage). Payloads are modelled opaquely as
strings. -/
structure WorkerMessage where
  id : String
  type : MsgType
  method : Option String
  args : List String
  result : Option String
  error : Option WorkerErrorInfo
  timestamp : Nat
deriving DecidableEq, Repr

/-- Errors a call can be failed with, carrying the data that distinguishes
the message the source builds. -/
inductive WorkerError where
  /-- Worker execution timeout after the given number of milliseconds. -/
  | timeoutAfter (ms : Nat)
  /-- Worker is not available: thrown synchronously by execute when status
  is terminated or error. -/
  | unavailable (status : WorkerStatus)
  /-- Worker is being terminated: the rejection used by terminate. -/
  | beingTerminated
  /-- An error message relayed from the worker, carrying the remote
  name, message and optional stack. -/
  | remote (name message : String) (stack : Option String)
  /-- No worker instances available for the pool (pool-level execute). -/
  | noInstancesAvailable
deriving DecidableEq, Repr

/-- The observable state of one WorkerInstance. The pendingMessages map is
a list of (correlation id, call kind) pairs in insertion order; a Map in the
source, so its keys are pairwise distinct. -/
structure InstanceState where
  status : WorkerStatus
  executionCount : Nat
  errorCount : Nat
  restartCount : Nat
  lastUsed : Nat
  pendingMessages : List (String × CallKind)
  /-- set once worker.terminate() has stopped the isolated context -/
  contextStopped : Bool
deriving DecidableEq, Repr

/-- A freshly constructed instance: status idle, all counters zero, no
pending calls. -/
def freshInstance : InstanceState :=
  { status := .idle
    executionCount := 0
    errorCount := 0
    restartCount := 0
    lastUsed := 0
    pendingMessages := []
    contextStopped := false }

/-- Getter isAvailable: status is idle. -/
def InstanceState.isAvailable (s : InstanceState) : Bool :=
  s.status == .idle

/-- Getter isBusy: status is busy. -/
def InstanceState.isBusy (s : InstanceState) : Bool :=
  s.status == .busy

/-- Getter isHealthy: status is neither error nor terminated. -/
def InstanceState.isHealthy (s : InstanceState) : Bool :=
  !(s.status == .error) && !(s.status == .terminated)

/-- Lookup of a correlation id in the pending map
(this.pendingMessages.get(message.id)): the first entry with that key. -/
def lookupPending : List (String × CallKind) → String → Option CallKind
  | [], _ => none
  | p :: tl, id => if p.1 = id then some p.2 else lookupPending tl id

/-- Deletion of a correlation id from the pending map
(this.pendingMessages.delete(messageId)): drops the first entry with that
key; removing the entry also models clearing its deadline timer. -/
def erasePending : List (String × CallKind) → String → List (String × CallKind)
  | [], _ => []
  | p :: tl, id => if p.1 = id then tl else p :: erasePending tl id

/-- What the message handler does to the caller of a pending call: invoke
the stored resolve with a payload, or the stored reject with an error
carrying the remote name, message and stack. -/
inductive HandlerAction where
  | fulfilled (payload : Option String)
  | rejectedWith (name message : String) (stack : Option String)
deriving DecidableEq, Repr

/-- JavaScript a || b on an optional string: the default is used when the
value is absent or is the empty string (which is falsy). -/
def jsOrDefault (s : Option String) (d : String) : String :=
  match s with
  | none => d
  | some v => if v == "" then d else v

/-- WorkerInstance.handleWorkerMessage: look the message id up among the
pending calls; an unknown id is logged and ignored. A known id first has
its timer cleared and its entry deleted; then a result message sets status
idle, increments the execution count, updates lastUsed and fulfills the
caller with the payload, and an error message sets status idle, increments
the error count and rejects the caller with the remote name, message and
stack (with defaults for absent or empty name and message). Any other
message type falls through both branches: the entry is gone and no action
is taken on the caller. -/
def handleWorkerMessage (s : InstanceState) (now : Nat) (m : WorkerMessage) :
    InstanceState × Option HandlerAction :=
  match lookupPending s.pendingMessages m.id with
  | none => (s, none)
  | some _ =>
    let s1 : InstanceState :=
      { s with pendingMessages := erasePending s.pendingMessages m.id }
    match m.type with
    | .result =>
      ({ s1 with status := .idle
                 executionCount := s1.executionCount + 1
                 lastUsed := now },
       some (.fulfilled m.result))
    | .error =>
      let nm := jsOrDefault (m.error.bind (fun e => e.name)) "WorkerError"
      let msg := jsOrDefault (m.error.bind (fun e => e.message))
        "Worker execution failed"
      ({ s1 with status := .idle, errorCount := s1.errorCount + 1 },
       some (.rejectedWith nm msg (m.error.bind (fun e => e.stack))))
    | _ => (s1, none)

/-- WorkerInstance.rejectAllPendingMessages: clear every deadline timer,
reject every pending caller with the given error, and clear the map. The
returned list pairs each pending correlation id with the error its caller
receives. -/
def rejectAllPendingMessages (s : InstanceState) (e : WorkerError) :
    InstanceState × List (String × WorkerError) :=
  ({ s with pendingMessages := [] },
   s.pendingMessages.map (fun p => (p.1, e)))

/-- WorkerInstance.terminate: reject all pending calls with the
being-terminated error, stop the isolated context, set status terminated. -/
def terminateInstance (s : InstanceState) :
    InstanceState × List (String × WorkerError) :=
  let r := rejectAllPendingMessages s .beingTerminated
  ({ r.1 with contextStopped := true, status := .terminated }, r.2)

/-- The start of WorkerInstance.execute: when status is terminated or error
the call rejects immediately (nothing is sent); otherwise a pending entry
keyed by a fresh correlation id is registered with a deadline timer, status
becomes busy and an execute message is posted to the worker. Returns the
outbound message on success. -/
def executeStart (s : InstanceState) (messageId method : String)
    (args : List String) (now : Nat) :
    Except WorkerError (InstanceState × WorkerMessage) :=
  if s.status = .terminated ∨ s.status = .error then
    .error (.unavailable s.status)
  else
    let m : WorkerMessage :=
      { id := messageId
        type := .execute
        method := some method
        args := args
        result := none
        error := none
        timestamp := now }
    .ok ({ s with
            pendingMessages := s.pendingMessages ++ [(messageId, .execCall)]
            status := .busy }, m)

/-- The deadline timer of an execute call firing: the pending entry is
deleted, status becomes error and the caller is rejected with the timeout
error. The third component is the message sent to the worker on timeout:
none, because the in-flight remote computation is not cancelled. -/
def fireExecuteTimeout (s : InstanceState) (messageId : String)
    (timeoutMs : Nat) :
    InstanceState × WorkerError × Option WorkerMessage :=
  ({ s with pendingMessages := erasePending s.pendingMessages messageId
            status := .error },
   .timeoutAfter timeoutMs,
   none)

/-- The outcome of a ping call as observed by its caller. The stored
resolve closure resolves the promise with true and the stored reject
resolves it with false, so a fulfilled action yields true and a rejected
action yields false; when the handler takes no action after clearing the
timer and deleting the entry, nothing is left that can settle the
promise. -/
inductive PingOutcome where
  | returnsTrue
  | returnsFalse
  | neverSettles
deriving DecidableEq, Repr

/-- Interpretation of the handler action taken on a pending ping entry. -/
def pingOutcomeOfAction : Option HandlerAction → PingOutcome
  | some (.fulfilled _) => .returnsTrue
  | some (.rejectedWith _ _ _) => .returnsFalse
  | none => .neverSettles

/-- The pong reply the worker runtime sends for a ping
(WorkerRuntime.sendPong): same id, type pong. -/
def pongReply (messageId : String) (now : Nat) : WorkerMessage :=
  { id := messageId
    type := .pong
    method := none
    args := []
    result := none
    error := none
    timestamp := now }

/-- WorkerInstance.ping: register a pending entry for a fresh correlation
id (status is not changed) and post a ping message. When the pong reply
arrives within the 5000 ms deadline it is processed by
handleWorkerMessage and the outcome is whatever that handler does to the
ping entry; when no reply arrives the deadline fires, which deletes the
entry and resolves the promise with false. -/
def pingCall (s : InstanceState) (messageId : String) (now : Nat)
    (pongWithinDeadline : Bool) : InstanceState × PingOutcome :=
  let s1 : InstanceState :=
    { s with pendingMessages := s.pendingMessages ++ [(messageId, .pingCall)] }
  if pongWithinDeadline then
    let r := handleWorkerMessage s1 now (pongReply messageId now)
    (r.1, pingOutcomeOfAction r.2)
  else
    ({ s1 with pendingMessages := erasePending s1.pendingMessages messageId },
     .returnsFalse)

/-- The caller-supplied WorkerOptions: every field optional (absent fields
are modelled as none). Numeric fields are integers so that the sign checks
of the validation are meaningful. -/
structure WorkerOptionsInput where
  minInstances : Option Int
  maxInstances : Option Int
  timeout : Option Int
  autoRestart : Option Bool
  restartDelay : Option Int
  maxRestartAttempts : Option Int
deriving DecidableEq, Repr

/-- The options after merging with DEFAULT_WORKER_OPTIONS
(src/lib/constants/worker.constants.ts). -/
structure ResolvedWorkerOptions where
  minInstances : Int
  maxInstances : Int
  timeout : Int
  autoRestart : Bool
  restartDelay : Int
  maxRestartAttempts : Int
deriving DecidableEq, Repr

/-- The spread of the WorkerPool constructor,
this.options = \x7b ...DEFAULT_WORKER_OPTIONS, ...options \x7d:
each supplied field overrides the default. -/
def resolveWorkerOptions (o : WorkerOptionsInput) : ResolvedWorkerOptions :=
  { minInstances := o.minInstances.getD 1
    maxInstances := o.maxInstances.getD 4
    timeout := o.timeout.getD 30000
    autoRestart := o.autoRestart.getD true
    restartDelay := o.restartDelay.getD 1000
    maxRestartAttempts := o.maxRestartAttempts.getD 3 }

/-- The aggregate state of a WorkerPool. -/
structure WorkerPoolState where
  options : ResolvedWorkerOptions
  instances : List InstanceState
  totalExecutions : Nat
  totalErrors : Nat
  executionTimes : List Nat
deriving DecidableEq, Repr

/-- The WorkerPool constructor: merge the options with the defaults and
let initializePool create minInstances fresh instances. The constructor
performs no validation of the merged options (initializePool is a floating
promise, so even an instance-spawn failure would not reject construction);
the Except result records that no throwing path depends on the options. -/
def constructWorkerPool (input : WorkerOptionsInput) :
    Except String WorkerPoolState :=
  let opts := resolveWorkerOptions input
  .ok { options := opts
        instances := (List.range opts.minInstances.toNat).map
          (fun _ => freshInstance)
        totalExecutions := 0
        totalErrors := 0
        executionTimes := [] }

/-- A worker-specific configuration entry as validated by
WorkerConfigService.validateWorkerSpecificConfig: hasWorkerClass models
the truthiness of config.workerClass. -/
structure WorkerSpecificConfig where
  hasWorkerClass : Bool
  workerClassName : String
  options : WorkerOptionsInput
deriving DecidableEq, Repr

/-- WorkerConfigService.validateWorkerSpecificConfig: of the option pair,
maxInstances is checked against minInstances only when both fields are
defined; each violated check throws the corresponding message. -/
def validateWorkerSpecificConfig (config : WorkerSpecificConfig)
    (index : Nat) : Except String Unit :=
  if !config.hasWorkerClass then
    .error ("Worker configuration at index " ++ toString index ++
      " is missing workerClass")
  else if config.options.minInstances.any (fun m => decide (m < 0)) then
    .error ("Worker " ++ config.workerClassName ++
      ": minInstances must be >= 0")
  else if (match config.options.maxInstances, config.options.minInstances with
           | some mx, some mn => decide (mx < mn)
           | _, _ => false) then
    .error ("Worker " ++ config.workerClassName ++
      ": maxInstances must be >= minInstances")
  else if config.options.timeout.any (fun t => decide (t ≤ 0)) then
    .error ("Worker " ++ config.workerClassName ++ ": timeout must be > 0")
  else if config.options.restartDelay.any (fun d => decide (d < 0)) then
    .error ("Worker " ++ config.workerClassName ++
      ": restartDelay must be >= 0")
  else if config.options.maxRestartAttempts.any (fun a => decide (a < 0)) then
    .error ("Worker " ++ config.workerClassName ++
      ": maxRestartAttempts must be >= 0")
  else
    .ok ()

/-- WorkerPool.getAvailableInstance: scan the pool in insertion order and
return the first instance with isAvailable, else null. -/
def getAvailableInstance (instances : List InstanceState) :
    Option InstanceState :=
  instances.find? (fun i => i.isAvailable)

/-- WorkerPool.scaleUp: null when the pool is at maxInstances; otherwise
the result of createWorkerInstance, where created = none models a creation
failure (caught, logged and turned into null). -/
def scaleUp (instances : List InstanceState) (maxInstances : Nat)
    (created : Option InstanceState) : Option InstanceState :=
  if instances.length ≥ maxInstances then none
  else created

/-- Number of availability polls within the 30000 ms bound at 100 ms
intervals (idealized time: checks are instantaneous, so the loop polls at
0 ms, 100 ms, ..., 29900 ms). -/
def maxAvailabilityPolls : Nat := 30000 / 100

/-- The polling loop of WorkerPool.waitForAvailableInstance: availAt k is
what getAvailableInstance returns at the k-th poll; fuel is the number of
polls remaining. -/
def waitLoop (availAt : Nat → Option InstanceState) :
    Nat → Nat → Option InstanceState
  | _, 0 => none
  | k, fuel + 1 =>
    match availAt k with
    | some i => some i
    | none => waitLoop availAt (k + 1) fuel

/-- WorkerPool.waitForAvailableInstance with its default 30000 ms bound. -/
def waitForAvailableInstance (availAt : Nat → Option InstanceState) :
    Option InstanceState :=
  waitLoop availAt 0 maxAvailabilityPolls

/-- The instance-selection phase of WorkerPool.execute: first an available
existing instance, else scaleUp, else poll for availability, else throw
the no-instances error. -/
def selectInstanceForExecute (instances : List InstanceState)
    (maxInstances : Nat) (created : Option InstanceState)
    (availAt : Nat → Option InstanceState) :
    Except WorkerError InstanceState :=
  match getAvailableInstance instances with
  | some i => .ok i
  | none =>
    match scaleUp instances maxInstances created with
    | some i => .ok i
    | none =>
      match waitForAvailableInstance availAt with
      | some i => .ok i
      | none => .error .noInstancesAvailable

/-- The result of the retry loop of WorkerPool.executeWithRetries run on a
per-attempt step function: the final state of the instance, the outcome
surfaced to the pool, the backoff delays awaited between consecutive
attempts (in order), and for each attempt whether a message was actually
posted to the worker. -/
structure RetryRun (σ : Type) where
  final : σ
  outcome : Except WorkerError String
  waits : List Nat
  posted : List Bool
deriving Repr

/-- The loop for (attempt = 0; attempt <= retries; attempt++) of
WorkerPool.executeWithRetries: fuel = retries - attempt counts the retries
remaining. A successful attempt returns immediately; a failed attempt
records the error as lastError and, when retries remain, awaits
1000 ms × (attempt + 1) before the next attempt; when none remain the
loop ends and lastError is thrown. -/
def retryLoop (step : σ → Nat → σ × Except WorkerError String × Bool) :
    σ → Nat → Nat → RetryRun σ
  | s, attempt, 0 =>
    let r := step s attempt
    { final := r.1, outcome := r.2.1, waits := [], posted := [r.2.2] }
  | s, attempt, fuel + 1 =>
    let r := step s attempt
    match r.2.1 with
    | .ok v => { final := r.1, outcome := .ok v, waits := [], posted := [r.2.2] }
    | .error _ =>
      let rest := retryLoop step r.1 (attempt + 1) fuel
      { final := rest.final
        outcome := rest.outcome
        waits := 1000 * (attempt + 1) :: rest.waits
        posted := r.2.2 :: rest.posted }

/-- The per-attempt step induced by an abstract outcome function: every
attempt is issued (and so posted) against the same instance, whose
behaviour at the i-th attempt is outcomes i. -/
def stepOf (outcomes : Nat → Except WorkerError String) :
    Unit → Nat → Unit × Except WorkerError String × Bool :=
  fun _ i => ((), outcomes i, true)

/-- WorkerPool.executeWithRetries on an abstract per-attempt outcome
function. -/
def executeWithRetries (outcomes : Nat → Except WorkerError String)
    (retries : Nat) : RetryRun Unit :=
  retryLoop (stepOf outcomes) () 0 retries

/-- The metrics update of WorkerPool.execute around executeWithRetries: a
success increments totalExecutions and pushes the wall-clock duration onto
executionTimes, shifting the oldest entry off when the ring exceeds 100;
a failure increments totalErrors and rethrows. Returns the new
(totalExecutions, totalErrors, executionTimes). -/
def recordPoolOutcome (totalExecutions totalErrors : Nat)
    (executionTimes : List Nat) (duration : Nat)
    (outcome : Except WorkerError String) : Nat × Nat × List Nat :=
  match outcome with
  | .ok _ =>
    let times := executionTimes ++ [duration]
    let times := if times.length > 100 then times.drop 1 else times
    (totalExecutions + 1, totalErrors, times)
  | .error _ => (totalExecutions, totalErrors + 1, executionTimes)

/-- The ping probe the health check performs on an idle instance, derived
from the embedded ping semantics (pingCall / handleWorkerMessage):
pongArrives says whether the worker delivers the pong reply within the
5000 ms deadline. -/
def probeIdle (i : InstanceState) (messageId : String) (pongArrives : Bool) :
    PingOutcome :=
  (pingCall i messageId 0 pongArrives).2

/-- The inspection loop of WorkerPool.performHealthCheck, with the removal
of the queued instances applied: an instance with isHealthy false is
queued (terminated and dropped once the loop completes); a healthy idle
instance is awaited on its ping probe, a probe that resolves false queues
it, a probe that resolves true keeps it, and a probe that never settles
hangs the whole tick at the await (Except.error carries the instance whose
probe hangs: the loop never finishes, so nothing queued is removed); a
healthy busy instance is kept without probing. -/
def scanInstances (pongArrives : InstanceState → Bool) :
    List InstanceState → Except InstanceState (List InstanceState)
  | [] => .ok []
  | i :: rest =>
    if i.isHealthy = false then
      scanInstances pongArrives rest
    else if i.isAvailable = true then
      match probeIdle i "hc" (pongArrives i) with
      | .returnsTrue => (scanInstances pongArrives rest).map (fun l => i :: l)
      | .returnsFalse => scanInstances pongArrives rest
      | .neverSettles => .error i
    else
      (scanInstances pongArrives rest).map (fun l => i :: l)

/-- WorkerPool.ensureMinimumInstances: when the pool is below minInstances
create the missing number of instances, one by one; create n = none models
the n-th creation failing, which is logged and does not stop the rest.
Note the source consults no maxInstances bound here. -/
def ensureMinimumInstances (instances : List InstanceState)
    (minInstances : Nat) (create : Nat → Option InstanceState) :
    List InstanceState :=
  if instances.length < minInstances then
    instances ++
      (List.range (minInstances - instances.length)).filterMap create
  else
    instances

/-- WorkerPool.performHealthCheck: inspect and prune, then top back up to
minInstances; when some probe never settles the tick hangs at that await
and neither the pruning nor ensureMinimumInstances is ever reached, so the
pool set is left exactly as it was. -/
def performHealthCheck (instances : List InstanceState)
    (pongArrives : InstanceState → Bool) (minInstances : Nat)
    (create : Nat → Option InstanceState) :
    Except InstanceState (List InstanceState) :=
  (scanInstances pongArrives instances).map
    (fun survivors => ensureMinimumInstances survivors minInstances create)

/-- One attempt of instance.execute in the scenario where the worker never
replies: an attempt on a terminated or errored instance rejects
immediately and posts nothing; otherwise the call is registered and
posted, no reply arrives, and the deadline fires. The Bool records whether
a message was posted to the worker. -/
def attemptWithTimeout (timeoutMs : Nat) (mid : Nat → String)
    (s : InstanceState) (attempt : Nat) :
    InstanceState × Except WorkerError String × Bool :=
  match executeStart s (mid attempt) "m" [] 0 with
  | .error e => (s, .error e, false)
  | .ok (s1, _) =>
    let r := fireExecuteTimeout s1 (mid attempt) timeoutMs
    (r.1, .error r.2.1, true)

/-- WorkerPool.executeWithRetries run against one instance whose worker
never replies, threading the instance state across attempts. -/
def retriesAgainstTimingOutInstance (s : InstanceState) (retries : Nat)
    (timeoutMs : Nat) (mid : Nat → String) : RetryRun InstanceState :=
  retryLoop (attemptWithTimeout timeoutMs mid) s 0 retries

/-- The sequence of linear-backoff delays awaited when every attempt from
the given attempt index on fails, with fuel retries remaining:
1000 ms × (attempt + 1), then 1000 ms × (attempt + 2), and so on. -/
def backoffWaits : Nat → Nat → List Nat
  | _, 0 => []
  | attempt, fuel + 1 => 1000 * (attempt + 1) :: backoffWaits (attempt + 1) fuel

/-- A busy instance with two in-flight execute calls, used to instantiate
the timeout and termination theorems. -/
def twoPendingState : InstanceState :=
  { status := .busy
    executionCount := 0
    errorCount := 0
    restartCount := 0
    lastUsed := 0
    pendingMessages := [("call-a", .execCall), ("call-b", .execCall)]
    contextStopped := false }

/-- An option set with maxInstances strictly below minInstances. -/
def badWorkerOptions : WorkerOptionsInput :=
  { minInstances := some 3
    maxInstances := some 1
    timeout := none
    autoRestart := none
    restartDelay := none
    maxRestartAttempts := none }

/-- A per-attempt outcome function that fails twice and then succeeds. -/
def failTwiceOutcomes : Nat → Except WorkerError String :=
  fun i => if i < 2 then .error (.timeoutAfter 1) else .ok "v"

/-- An instance whose isolated context has faulted. -/
def erroredInstance : InstanceState :=
  { freshInstance with status := .error }

/-- An instance currently running a call. -/
def busyInstance : InstanceState :=
  { freshInstance with status := .busy }

/-- A result message carrying a payload, as sent by
WorkerRuntime.sendResult. -/
def resultMessage (messageId payload : String) (now : Nat) : WorkerMessage :=
  { id := messageId
    type := .result
    method := none
    args := []
    result := some payload
    error := none
    timestamp := now }

/-- An error message carrying the remote name, message and stack, as sent
by WorkerRuntime.sendError. -/
def errorMessage (messageId : String) (info : WorkerErrorInfo) (now : Nat) :
    WorkerMessage :=
  { id := messageId
    type := .error
    method := none
    args := []
    result := none
    error := some info
    timestamp := now }

/- Helper lemmas about the pending map. -/

theorem lookupPending_eq_none_of_not_mem (pend : List (String × CallKind))
    (a : String) (h : a ∉ pend.map Prod.fst) : lookupPending pend a = none := by
  induction pend with
  | nil => rfl
  | cons p tl ih =>
    simp only [List.map_cons, List.mem_cons, not_or] at h
    rw [lookupPending, if_neg (fun e => h.1 e.symm)]
    exact ih h.2

theorem lookupPending_erase_ne (pend : List (String × CallKind))
    (a b : String) (hab : a ≠ b) :
    lookupPending (erasePending pend a) b = lookupPending pend b := by
  induction pend with
  | nil => rfl
  | cons p tl ih =>
    by_cases ha : p.1 = a
    · rw [erasePending, if_pos ha, lookupPending,
        if_neg (fun e => hab ((ha.symm.trans e) ▸ rfl))]
    · rw [erasePending, if_neg ha]
      by_cases hb : p.1 = b
      · rw [lookupPending, if_pos hb, lookupPending, if_pos hb]
      · rw [lookupPending, if_neg hb, lookupPending, if_neg hb]
        exact ih

theorem lookupPending_erase_self (pend : List (String × CallKind))
    (a : String) (h : (pend.map Prod.fst).Nodup) :
    lookupPending (erasePending pend a) a = none := by
  induction pend with
  | nil => rfl
  | cons p tl ih =>
    simp only [List.map_cons, List.nodup_cons] at h
    by_cases ha : p.1 = a
    · rw [erasePending, if_pos ha]
      exact lookupPending_eq_none_of_not_mem tl a (ha ▸ h.1)
    · rw [erasePending, if_neg ha, lookupPending, if_neg ha]
      exact ih h.2

theorem length_erase_of_lookup_some (pend : List (String × CallKind))
    (a : String) (k : CallKind) (h : lookupPending pend a = some k) :
    (erasePending pend a).length + 1 = pend.length := by
  induction pend with
  | nil => exact absurd h (by simp [lookupPending])
  | cons p tl ih =>
    by_cases ha : p.1 = a
    · rw [erasePending, if_pos ha, List.length_cons]
    · rw [lookupPending, if_neg ha] at h
      rw [erasePending, if_neg ha, List.length_cons, List.length_cons]
      exact congrArg (· + 1) (ih h)

/- Helper lemmas about the retry loop. -/

theorem backoffWaits_length : ∀ (attempt fuel : Nat),
    (backoffWaits attempt fuel).length = fuel := by
  intro attempt fuel
  induction fuel generalizing attempt with
  | zero => rfl
  | succ n ih => simpa [backoffWaits] using ih (attempt + 1)

theorem backoffWaits_get : ∀ (fuel attempt j : Nat)
    (hj : j < (backoffWaits attempt fuel).length),
    (backoffWaits attempt fuel).get ⟨j, hj⟩ = 1000 * (attempt + j + 1) := by
  intro fuel
  induction fuel with
  | zero => intro attempt j hj; exact absurd hj (by simp [backoffWaits])
  | succ n ih =>
    intro attempt j hj
    cases j with
    | zero => rfl
    | succ m =>
      have hm : m < (backoffWaits (attempt + 1) n).length := by
        simpa [backoffWaits] using hj
      have := ih (attempt + 1) m hm
      simpa [backoffWaits, Nat.add_assoc, Nat.add_comm, Nat.add_left_comm]
        using this

theorem retryLoop_posted_length {σ : Type}
    (step : σ → Nat → σ × Except WorkerError String × Bool) :
    ∀ (fuel : Nat) (s : σ) (attempt : Nat),
    (retryLoop step s attempt fuel).posted.length =
      (retryLoop step s attempt fuel).waits.length + 1 := by
  intro fuel
  induction fuel with
  | zero => intro s attempt; rfl
  | succ n ih =>
    intro s attempt
    rw [retryLoop]
    cases h : (step s attempt).2.1 with
    | ok v => rfl
    | error e => simpa using ih (step s attempt).1 (attempt + 1)

theorem retryLoop_waits_eq_backoff {σ : Type}
    (step : σ → Nat → σ × Except WorkerError String × Bool) :
    ∀ (fuel : Nat) (s : σ) (attempt : Nat),
    (retryLoop step s attempt fuel).waits =
      backoffWaits attempt ((retryLoop step s attempt fuel).waits.length) := by
  intro fuel
  induction fuel with
  | zero => intro s attempt; rfl
  | succ n ih =>
    intro s attempt
    rw [retryLoop]
    cases h : (step s attempt).2.1 with
    | ok v => rfl
    | error e =>
      simp only [List.length_cons]
      rw [backoffWaits]
      exact congrArg (1000 * (attempt + 1) :: ·)
        (ih (step s attempt).1 (attempt + 1))

theorem retryLoop_waits_get {σ : Type}
    (step : σ → Nat → σ × Except WorkerError String × Bool) :
    ∀ (fuel : Nat) (s : σ) (attempt j : Nat)
      (hj : j < (retryLoop step s attempt fuel).waits.length),
    (retryLoop step s attempt fuel).waits.get ⟨j, hj⟩ =
      1000 * (attempt + j + 1) := by
  intro fuel
  induction fuel with
  | zero => intro s attempt j hj; exact absurd hj (by simp [retryLoop])
  | succ n ih =>
    intro s attempt j hj
    simp only [retryLoop] at hj ⊢
    revert hj
    cases h : (step s attempt).2.1 with
    | ok v => intro hj; exact absurd hj (by simp)
    | error e =>
      simp only
      intro hj
      cases j with
      | zero => rfl
      | succ m =>
        have hm : m < (retryLoop step (step s attempt).1 (attempt + 1) n).waits.length := by
          simpa using hj
        have := ih (step s attempt).1 (attempt + 1) m hm
        simp only [List.get_cons_succ] at this ⊢
        rw [this]
        ring

theorem retryLoop_waits_length_le {σ : Type}
    (step : σ → Nat → σ × Except WorkerError String × Bool) :
    ∀ (fuel : Nat) (s : σ) (attempt : Nat),
    (retryLoop step s attempt fuel).waits.length ≤ fuel := by
  intro fuel
  induction fuel with
  | zero => intro s attempt; exact Nat.le_refl 0
  | succ n ih =>
    intro s attempt
    rw [retryLoop]
    cases h : (step s attempt).2.1 with
    | ok v => exact Nat.zero_le _
    | error e =>
      simpa using Nat.succ_le_succ (ih (step s attempt).1 (attempt + 1))

theorem executeRetries_all_error_aux (outcomes : Nat → Except WorkerError String) :
    ∀ (fuel attempt : Nat),
    (∀ i, attempt ≤ i → i ≤ attempt + fuel → ∃ e, outcomes i = .error e) →
    (retryLoop (stepOf outcomes) () attempt fuel).outcome =
      outcomes (attempt + fuel) := by
  intro fuel
  induction fuel with
  | zero =>
    intro attempt h
    obtain ⟨e, he⟩ := h attempt (Nat.le_refl _) (Nat.le_refl _)
    simp [retryLoop, stepOf, he]
  | succ n ih =>
    intro attempt h
    obtain ⟨e, he⟩ := h attempt (Nat.le_refl _) (Nat.le_add_right _ _)
    rw [retryLoop]
    simp only [stepOf, he]
    have := ih (attempt + 1) (fun i h1 h2 => h i (Nat.le_of_succ_le h1)
      (by omega))
    rw [this]
    exact congrArg outcomes (by omega)

theorem executeRetries_first_success_aux
    (outcomes : Nat → Except WorkerError String) :
    ∀ (fuel attempt i : Nat) (v : String),
    attempt ≤ i → i ≤ attempt + fuel → outcomes i = .ok v →
    (∀ j, attempt ≤ j → j < i → ∃ e, outcomes j = .error e) →
    (retryLoop (stepOf outcomes) () attempt fuel).outcome = .ok v ∧
    (retryLoop (stepOf outcomes) () attempt fuel).waits.length = i - attempt := by
  intro fuel
  induction fuel with
  | zero =>
    intro attempt i v h1 h2 hok _
    have hi : i = attempt := by omega
    subst hi
    constructor
    · simp [retryLoop, stepOf, hok]
    · simp [retryLoop, stepOf]
  | succ n ih =>
    intro attempt i v h1 h2 hok hfail
    by_cases hi : i = attempt
    · subst hi
      constructor
      · rw [retryLoop]; simp [stepOf, hok]
      · rw [retryLoop]; simp [stepOf, hok]
    · obtain ⟨e, he⟩ := hfail attempt (Nat.le_refl _) (by omega)
      have hih := ih (attempt + 1) i v (by omega) (by omega) hok
        (fun j hj1 hj2 => hfail j (by omega) hj2)
      rw [retryLoop]
      simp only [stepOf, he]
      refine ⟨hih.1, ?_⟩
      simp only [List.length_cons, hih.2]
      omega

/- Helper lemmas about scanning, polling and creation. -/

theorem find?_of_first {α : Type} (p : α → Bool) :
    ∀ (l : List α) (i : Nat) (h : i < l.length),
      p (l.get ⟨i, h⟩) = true →
      (∀ j (hj : j < i), p (l.get ⟨j, Nat.lt_trans hj h⟩) = false) →
      l.find? p = some (l.get ⟨i, h⟩) := by
  intro l
  induction l with
  | nil => intro i h; exact absurd h (by simp)
  | cons a tl ih =>
    intro i h hp hprev
    cases i with
    | zero => exact List.find?_cons_of_pos tl hp
    | succ n =>
      have ha : p a = false := hprev 0 (Nat.succ_pos n)
      rw [List.find?_cons_of_neg tl (by simp [ha])]
      exact ih n (Nat.lt_of_succ_lt_succ h) hp
        (fun j hj => hprev (j + 1) (Nat.succ_lt_succ hj))

theorem find?_eq_none_of_all_false {α : Type} (p : α → Bool)
    (l : List α) (h : ∀ x ∈ l, p x = false) : l.find? p = none :=
  List.find?_eq_none.mpr (fun x hx => by rw [h x hx]; exact Bool.false_ne_true)

theorem waitLoop_finds (availAt : Nat → Option InstanceState) :
    ∀ (fuel start k : Nat) (inst : InstanceState),
      start ≤ k → k < start + fuel → availAt k = some inst →
      (∀ j, start ≤ j → j < k → availAt j = none) →
      waitLoop availAt start fuel = some inst := by
  intro fuel
  induction fuel with
  | zero => intro start k inst h1 h2 _ _; exact absurd h2 (by omega)
  | succ n ih =>
    intro start k inst h1 h2 hk hprev
    by_cases he : start = k
    · subst he
      simp [waitLoop, hk]
    · have hs : availAt start = none := hprev start (Nat.le_refl _) (by omega)
      simp only [waitLoop, hs]
      exact ih (start + 1) k inst (by omega) (by omega) hk
        (fun j hj1 hj2 => hprev j (by omega) hj2)

theorem waitLoop_exhausts (availAt : Nat → Option InstanceState) :
    ∀ (fuel start : Nat),
      (∀ j, start ≤ j → j < start + fuel → availAt j = none) →
      waitLoop availAt start fuel = none := by
  intro fuel
  induction fuel with
  | zero => intro start _; rfl
  | succ n ih =>
    intro start h
    have hs : availAt start = none := h start (Nat.le_refl _) (by omega)
    simp only [waitLoop, hs]
    exact ih (start + 1) (fun j hj1 hj2 => h j (by omega) (by omega))

theorem lookupPending_append_self :
    ∀ (pend : List (String × CallKind)) (mid : String) (k : CallKind),
    (lookupPending (pend ++ [(mid, k)]) mid).isSome = true := by
  intro pend mid k
  induction pend with
  | nil => simp [lookupPending]
  | cons p tl ih =>
    by_cases hp : p.1 = mid
    · simp [lookupPending, hp]
    · simp only [List.cons_append, lookupPending, if_neg hp]
      exact ih

theorem probeIdle_spec (i : InstanceState) (mid : String) (b : Bool) :
    probeIdle i mid b = if b then .neverSettles else .returnsFalse := by
  cases b with
  | false => rfl
  | true =>
    have hs := lookupPending_append_self i.pendingMessages mid .pingCall
    cases hl : lookupPending (i.pendingMessages ++ [(mid, CallKind.pingCall)])
        mid with
    | none => rw [hl] at hs; exact absurd hs (by simp)
    | some k =>
      simp [probeIdle, pingCall, handleWorkerMessage, pongReply, hl,
        pingOutcomeOfAction]

/- Claim theorems. -/

/-- Claim C9: terminate fails all currently pending calls with the
being-terminated error, stops the isolated context and sets status to
terminated; calling terminate again is idempotent in effect, finding
nothing pending and changing nothing. -/
theorem c9_terminate (s : InstanceState) :
    (terminateInstance s).2 =
      s.pendingMessages.map (fun p => (p.1, WorkerError.beingTerminated)) ∧
    (terminateInstance s).1.status = .terminated ∧
    (terminateInstance s).1.pendingMessages = [] ∧
    (terminateInstance s).1.contextStopped = true ∧
    terminateInstance (terminateInstance s).1 = ((terminateInstance s).1, []) :=
  ⟨rfl, rfl, rfl, rfl, rfl⟩

/-- Claim C7: when the deadline of an in-flight execute call elapses before
a matching response arrives, the pending entry is removed (other pending
entries are untouched), the status becomes error (so the instance is no
longer healthy), the caller is failed with the timeout error, and no
message is sent to the worker: the in-flight remote computation is not
actively cancelled. -/
theorem c7_execute_timeout (s : InstanceState) (messageId : String) (t : Nat)
    (hk : (s.pendingMessages.map Prod.fst).Nodup)
    (hpend : lookupPending s.pendingMessages messageId = some .execCall) :
    lookupPending (fireExecuteTimeout s messageId t).1.pendingMessages
      messageId = none ∧
    (∀ id2, id2 ≠ messageId →
      lookupPending (fireExecuteTimeout s messageId t).1.pendingMessages id2 =
        lookupPending s.pendingMessages id2) ∧
    (fireExecuteTimeout s messageId t).1.pendingMessages.length + 1 =
      s.pendingMessages.length ∧
    (fireExecuteTimeout s messageId t).1.status = .error ∧
    (fireExecuteTimeout s messageId t).1.isHealthy = false ∧
    (fireExecuteTimeout s messageId t).2.1 = .timeoutAfter t ∧
    (fireExecuteTimeout s messageId t).2.2 = none := by
  refine ⟨?_, ?_, ?_, rfl, rfl, rfl, rfl⟩
  · exact lookupPending_erase_self _ _ hk
  · exact fun id2 h2 =>
      lookupPending_erase_ne _ _ _ (fun e => h2 e.symm)
  · exact length_erase_of_lookup_some _ _ _ hpend

/-- Witness for C7 at a concrete instance with two pending calls. -/
theorem c7_execute_timeout_witness :
    lookupPending (fireExecuteTimeout twoPendingState "call-a" 5000).1.pendingMessages
      "call-a" = none ∧
    lookupPending (fireExecuteTimeout twoPendingState "call-a" 5000).1.pendingMessages
      "call-b" = some .execCall ∧
    (fireExecuteTimeout twoPendingState "call-a" 5000).1.status = .error ∧
    (fireExecuteTimeout twoPendingState "call-a" 5000).2.2 = none := by
  have h := c7_execute_timeout twoPendingState "call-a" 5000 (by decide) (by decide)
  exact ⟨h.1, by decide, h.2.2.2.1, h.2.2.2.2.2.2⟩

/-- Claim C2 (refuted by the code): when the pong reply arrives within the
5000 ms deadline, handleWorkerMessage finds the pending ping entry, clears
its timer and deletes it, but takes no action for a pong-type message
(only result and error settle a caller), so the ping promise never
settles: ping never returns true. Only the no-reply path resolves, with
false. -/
theorem c2_ping_pong_never_settles :
    (pingCall freshInstance "ping-1" 0 true).2 = .neverSettles ∧
    (pingCall freshInstance "ping-1" 0 true).1.pendingMessages = [] ∧
    (pingCall freshInstance "ping-1" 0 false).2 = .returnsFalse ∧
    (pingCall freshInstance "ping-1" 0 false).1.pendingMessages = [] :=
  ⟨rfl, rfl, rfl, rfl⟩

/-- Counterexample to claim C1 as stated: the WorkerPool constructor
accepts options with maxInstances = 1 < 3 = minInstances without any
error and creates 3 (not zero) instances, so an option set violating
maxInstances >= minInstances is accepted at construction. -/
theorem c1_constructor_accepts_bad_options :
    constructWorkerPool badWorkerOptions =
      .ok { options := resolveWorkerOptions badWorkerOptions
            instances := [freshInstance, freshInstance, freshInstance]
            totalExecutions := 0
            totalErrors := 0
            executionTimes := [] } ∧
    (resolveWorkerOptions badWorkerOptions).maxInstances <
      (resolveWorkerOptions badWorkerOptions).minInstances ∧
    ((constructWorkerPool badWorkerOptions).map
      (fun p => p.instances.length)) = .ok 3 := by
  refine ⟨rfl, by decide, rfl⟩

/-- Claim C1 amended: the maxInstances >= minInstances check lives in
WorkerConfigService.validateWorkerSpecificConfig and fires exactly when a
worker-specific configuration defines both bounds with
maxInstances < minInstances (and a nonnegative minInstances, which is
checked first); the WorkerPool constructor itself never fails and always
creates minInstances instances from the merged options. -/
theorem c1_validation_in_config_service (cfg : WorkerSpecificConfig)
    (idx : Nat) (mn mx : Int) (hc : cfg.hasWorkerClass = true)
    (hmn : cfg.options.minInstances = some mn)
    (hmx : cfg.options.maxInstances = some mx)
    (h0 : 0 ≤ mn) (hlt : mx < mn) :
    validateWorkerSpecificConfig cfg idx =
      .error ("Worker " ++ cfg.workerClassName ++
        ": maxInstances must be >= minInstances") ∧
    ∀ input : WorkerOptionsInput, ∃ p,
      constructWorkerPool input = .ok p ∧
      p.instances.length = (resolveWorkerOptions input).minInstances.toNat ∧
      p.options = resolveWorkerOptions input := by
  constructor
  · have hneg : cfg.options.minInstances.any (fun m => decide (m < 0)) = false := by
      rw [hmn]
      simp only [Option.any_some, decide_eq_false_iff_not, not_lt]
      exact h0
    rw [validateWorkerSpecificConfig, if_neg (by rw [hc]; exact Bool.false_ne_true),
      if_neg (by rw [hneg]; exact Bool.false_ne_true), if_pos]
    rw [hmx, hmn]
    exact decide_eq_true hlt
  · intro input
    refine ⟨_, rfl, ?_, rfl⟩
    simp [constructWorkerPool]

/-- Witness for C1: the amended validation at a concrete configuration,
and a concrete construction. -/
theorem c1_validation_witness :
    validateWorkerSpecificConfig
      { hasWorkerClass := true
        workerClassName := "CryptoWorker"
        options := badWorkerOptions } 0 =
      .error "Worker CryptoWorker: maxInstances must be >= minInstances" := by
  exact (c1_validation_in_config_service
    { hasWorkerClass := true
      workerClassName := "CryptoWorker"
      options := badWorkerOptions } 0 3 1 rfl rfl rfl (by decide) (by decide)).1

/-- Counterexample to claim C3 as stated: a failed pool-level execute
increments only totalErrors; totalExecutions stays 0 and is not
incremented to 1 as the claim requires of every call. -/
theorem c3_failure_keeps_totalExecutions :
    recordPoolOutcome 0 0 [] 7 (.error .beingTerminated) = (0, 1, []) ∧
    (recordPoolOutcome 0 0 [] 7 (.error .beingTerminated)).1 ≠ 0 + 1 := by
  refine ⟨rfl, by decide⟩

/-- Claim C3 amended: a successful pool-level execute increments
totalExecutions by exactly 1, leaves totalErrors unchanged and appends
the wall-clock duration to the latency ring (evicting the oldest entry
past 100); a failed execute increments only totalErrors and leaves both
totalExecutions and the ring unchanged; the ring stays bounded by 100. -/
theorem c3_pool_metrics (te terr : Nat) (times : List Nat) (d : Nat)
    (outcome : Except WorkerError String) :
    (∀ v, outcome = .ok v →
      recordPoolOutcome te terr times d outcome =
        (te + 1, terr,
          if times.length + 1 > 100 then (times ++ [d]).drop 1
          else times ++ [d])) ∧
    (∀ e, outcome = .error e →
      recordPoolOutcome te terr times d outcome = (te, terr + 1, times)) ∧
    (times.length ≤ 100 →
      (recordPoolOutcome te terr times d outcome).2.2.length ≤ 100) := by
  refine ⟨?_, ?_, ?_⟩
  · intro v hv
    subst hv
    simp [recordPoolOutcome]
  · intro e he
    subst he
    rfl
  · intro hb
    cases outcome with
    | ok v =>
      simp only [recordPoolOutcome, List.length_append, List.length_singleton]
      by_cases h : times.length + 1 > 100
      · rw [if_pos h]
        simp only [List.length_drop, List.length_append, List.length_singleton]
        omega
      · rw [if_neg h]
        simp only [List.length_append, List.length_singleton]
        omega
    | error e => exact hb

/-- Witness for C3: the amended metric update at concrete inputs, one
success and one failure. -/
theorem c3_pool_metrics_witness :
    recordPoolOutcome 5 2 [10] 7 (.ok "r") = (6, 2, [10, 7]) ∧
    recordPoolOutcome 5 2 [10] 7 (.error (.timeoutAfter 30000)) =
      (5, 3, [10]) := by
  refine ⟨?_, ?_⟩
  · have h := (c3_pool_metrics 5 2 [10] 7 (.ok "r")).1 "r" rfl
    simpa using h
  · exact (c3_pool_metrics 5 2 [10] 7 (.error (.timeoutAfter 30000))).2.1
      (.timeoutAfter 30000) rfl

/-- Claim C5: with method option retries = r the call is attempted up to
r + 1 times against the same instance (the number of attempts is the
number of backoff waits plus one), the pool waits 1000 ms × attemptNumber
between consecutive attempts, if every attempt fails the last observed
error is surfaced, and a first success at attempt i returns it after
exactly i backoff waits. -/
theorem c5_retry_policy (outcomes : Nat → Except WorkerError String)
    (retries : Nat) :
    (executeWithRetries outcomes retries).waits.length ≤ retries ∧
    (executeWithRetries outcomes retries).posted.length =
      (executeWithRetries outcomes retries).waits.length + 1 ∧
    (∀ j (hj : j < (executeWithRetries outcomes retries).waits.length),
      (executeWithRetries outcomes retries).waits.get ⟨j, hj⟩ =
        1000 * (j + 1)) ∧
    ((∀ i, i ≤ retries → ∃ e, outcomes i = .error e) →
      (executeWithRetries outcomes retries).outcome = outcomes retries) ∧
    (∀ i v, i ≤ retries → outcomes i = .ok v →
      (∀ j, j < i → ∃ e, outcomes j = .error e) →
      (executeWithRetries outcomes retries).outcome = .ok v ∧
      (executeWithRetries outcomes retries).waits.length = i) := by
  refine ⟨retryLoop_waits_length_le _ retries () 0,
    retryLoop_posted_length _ retries () 0, ?_, ?_, ?_⟩
  · intro j hj
    have h2 := retryLoop_waits_get (stepOf outcomes) retries () 0 j hj
    simpa using h2
  · intro h
    have := executeRetries_all_error_aux outcomes retries 0
      (fun i h1 h2 => h i (by omega))
    simpa using this
  · intro i v hi hok hfail
    have := executeRetries_first_success_aux outcomes retries 0 i v
      (Nat.zero_le _) (by omega) hok (fun j _ hj => hfail j hj)
    simpa using this

/-- Witness for C5: two failures then a success with retries = 2 returns
the success after exactly two backoff waits of 1000 ms and 2000 ms. -/
theorem c5_retry_policy_witness :
    (executeWithRetries failTwiceOutcomes 2).outcome = .ok "v" ∧
    (executeWithRetries failTwiceOutcomes 2).waits.length = 2 ∧
    (executeWithRetries failTwiceOutcomes 2).waits = [1000, 2000] := by
  have h := (c5_retry_policy failTwiceOutcomes 2).2.2.2.2 2 "v"
    (Nat.le_refl 2) rfl
    (fun j hj => ⟨.timeoutAfter 1, by
      match j, hj with
      | 0, _ => rfl
      | 1, _ => rfl⟩)
  exact ⟨h.1, h.2, by rfl⟩

/-- The retry loop of WorkerPool.executeWithRetries run against an
instance whose status is already error never posts another message: every
remaining attempt rejects immediately with the unavailable error, the
backoff delays still elapse, and the instance state never changes. -/
theorem retryLoop_on_error_state (t : Nat) (mid : Nat → String) :
    ∀ (fuel attempt : Nat) (s : InstanceState), s.status = .error →
    retryLoop (attemptWithTimeout t mid) s attempt fuel =
      { final := s
        outcome := .error (.unavailable .error)
        waits := backoffWaits attempt fuel
        posted := List.replicate (fuel + 1) false } := by
  intro fuel
  induction fuel with
  | zero =>
    intro attempt s hs
    rw [retryLoop]
    simp [attemptWithTimeout, executeStart, hs, backoffWaits,
      List.replicate]
  | succ n ih =>
    intro attempt s hs
    rw [retryLoop]
    have hstep : attemptWithTimeout t mid s attempt =
        (s, .error (.unavailable .error), false) := by
      simp [attemptWithTimeout, executeStart, hs]
    rw [hstep]
    simp only
    rw [ih (attempt + 1) s hs]
    simp [backoffWaits, List.replicate]

/-- Claim C10: after the first attempt of a retried pool-level execute
times out (marking the instance status error), every later attempt
rejects immediately with the unavailable error without posting a message,
so with retries > 0 the surfaced error is the unavailable error, not the
timeout error, while the retries linear-backoff delays still elapse. -/
theorem c10_retry_after_timeout (retries : Nat) (hr : 0 < retries) (t : Nat)
    (mid : Nat → String) (s : InstanceState)
    (hidle : s.status = .idle) (hpend : s.pendingMessages = []) :
    (retriesAgainstTimingOutInstance s retries t mid).outcome =
      .error (.unavailable .error) ∧
    (retriesAgainstTimingOutInstance s retries t mid).outcome ≠
      .error (.timeoutAfter t) ∧
    (retriesAgainstTimingOutInstance s retries t mid).posted =
      true :: List.replicate retries false ∧
    (retriesAgainstTimingOutInstance s retries t mid).waits.length =
      retries ∧
    (∀ j (hj : j <
        (retriesAgainstTimingOutInstance s retries t mid).waits.length),
      (retriesAgainstTimingOutInstance s retries t mid).waits.get ⟨j, hj⟩ =
        1000 * (j + 1)) := by
  obtain ⟨fuel, rfl⟩ : ∃ fuel, retries = fuel + 1 :=
    ⟨retries - 1, by omega⟩
  have hstep : attemptWithTimeout t mid s 0 =
      ({ s with pendingMessages := [], status := .error },
       .error (.timeoutAfter t), true) := by
    simp [attemptWithTimeout, executeStart, hidle, fireExecuteTimeout,
      hpend, erasePending]
  have hrun : retriesAgainstTimingOutInstance s (fuel + 1) t mid =
      { final := { s with pendingMessages := [], status := .error }
        outcome := .error (.unavailable .error)
        waits := 1000 * 1 :: backoffWaits 1 fuel
        posted := true :: List.replicate (fuel + 1) false } := by
    rw [retriesAgainstTimingOutInstance, retryLoop, hstep]
    simp only
    rw [retryLoop_on_error_state t mid fuel 1
      { s with pendingMessages := [], status := .error } rfl]
  rw [hrun]
  refine ⟨rfl, by simp, rfl, ?_, ?_⟩
  · simp [backoffWaits_length]
  · intro j hj
    cases j with
    | zero => rfl
    | succ m =>
      have hm : m < (backoffWaits 1 fuel).length := by
        simpa using hj
      have := backoffWaits_get fuel 1 m hm
      simp only [List.get_cons_succ] at this ⊢
      rw [this]
      ring

/-- Witness for C10: a fresh idle instance, retries = 2: the surfaced
error is the unavailable error and only the first attempt posted. -/
theorem c10_retry_after_timeout_witness :
    (retriesAgainstTimingOutInstance freshInstance 2 30000
      (fun n => toString n)).outcome = .error (.unavailable .error) ∧
    (retriesAgainstTimingOutInstance freshInstance 2 30000
      (fun n => toString n)).posted = [true, false, false] := by
  have h := c10_retry_after_timeout 2 (by decide) 30000
    (fun n => toString n) freshInstance rfl rfl
  exact ⟨h.1, by rw [h.2.2.1]; rfl⟩

/-- Claim C4: pool-level instance selection takes the first existing
instance with isAvailable true; when none is available it creates a new
instance provided the pool is below maxInstances and creation succeeds;
failing that it polls (at 100 ms intervals within the 30 s bound) and
returns the first instance to appear; and when every poll comes up empty
the call fails with the no-instances-available error. -/
theorem c4_instance_selection (instances : List InstanceState) (maxI : Nat)
    (created : Option InstanceState)
    (availAt : Nat → Option InstanceState) :
    (∀ i (h : i < instances.length),
      (instances.get ⟨i, h⟩).isAvailable = true →
      (∀ j (hj : j < i),
        (instances.get ⟨j, Nat.lt_trans hj h⟩).isAvailable = false) →
      selectInstanceForExecute instances maxI created availAt =
        .ok (instances.get ⟨i, h⟩)) ∧
    ((∀ inst ∈ instances, inst.isAvailable = false) →
      instances.length < maxI → ∀ c, created = some c →
      selectInstanceForExecute instances maxI created availAt = .ok c) ∧
    ((∀ inst ∈ instances, inst.isAvailable = false) →
      (maxI ≤ instances.length ∨ created = none) →
      ∀ k inst, k < maxAvailabilityPolls → availAt k = some inst →
      (∀ j, j < k → availAt j = none) →
      selectInstanceForExecute instances maxI created availAt = .ok inst) ∧
    ((∀ inst ∈ instances, inst.isAvailable = false) →
      (maxI ≤ instances.length ∨ created = none) →
      (∀ k, k < maxAvailabilityPolls → availAt k = none) →
      selectInstanceForExecute instances maxI created availAt =
        .error .noInstancesAvailable) := by
  refine ⟨?_, ?_, ?_, ?_⟩
  · intro i h hp hprev
    have hf : getAvailableInstance instances = some (instances.get ⟨i, h⟩) :=
      find?_of_first _ instances i h hp hprev
    simp [selectInstanceForExecute, hf]
  · intro hnone hlt c hc
    have hf : getAvailableInstance instances = none :=
      find?_eq_none_of_all_false _ _ hnone
    have hnotge : ¬ instances.length ≥ maxI := Nat.not_le.mpr hlt
    simp [selectInstanceForExecute, hf, scaleUp, hnotge, hc]
  · intro hnone hcap k inst hk hks hprev
    have hf : getAvailableInstance instances = none :=
      find?_eq_none_of_all_false _ _ hnone
    have hsc : scaleUp instances maxI created = none := by
      rcases hcap with hle | hnc
      · simp [scaleUp, hle]
      · simp [scaleUp, hnc]
    have hw : waitForAvailableInstance availAt = some inst :=
      waitLoop_finds availAt maxAvailabilityPolls 0 k inst (Nat.zero_le _)
        (by simpa using hk) hks (fun j _ hj => hprev j hj)
    simp [selectInstanceForExecute, hf, hsc, hw]
  · intro hnone hcap hall
    have hf : getAvailableInstance instances = none :=
      find?_eq_none_of_all_false _ _ hnone
    have hsc : scaleUp instances maxI created = none := by
      rcases hcap with hle | hnc
      · simp [scaleUp, hle]
      · simp [scaleUp, hnc]
    have hw : waitForAvailableInstance availAt = none :=
      waitLoop_exhausts availAt maxAvailabilityPolls 0
        (fun j _ hj => hall j (by simpa using hj))
    simp [selectInstanceForExecute, hf, hsc, hw]

/-- Witness for C4: a pool holding one busy and one idle instance selects
the idle one (first available in scan order). -/
theorem c4_instance_selection_witness :
    selectInstanceForExecute [busyInstance, freshInstance] 4 none
      (fun _ => none) = .ok freshInstance := by
  have h := (c4_instance_selection [busyInstance, freshInstance] 4 none
    (fun _ => none)).1 1 (by decide) (by decide)
    (fun j hj => by
      match j, hj with
      | 0, _ => rfl)
  exact h

/-- Claim C6 (refuted by the code): the health-check tick behaves as
claimed only when no healthy idle instance answers its probe. By the
embedded ping semantics a probe can never report a responsive instance:
it resolves false when no pong arrives within the deadline and never
settles when one does (the handler drops the pong), so on a pool holding
one faulted instance and one responsive idle instance the tick hangs
forever at the await of the probe: the faulted instance is never
terminated or removed and no replacement is ever created. Moreover the
top-up consults no maxInstances bound: a pool that has fallen empty with
minInstances 3 is topped up to 3 instances regardless of any smaller
maxInstances (and pools with minInstances above maxInstances are
constructible, as the constructor validates nothing). -/
theorem c6_health_check_tick_hangs :
    performHealthCheck [erroredInstance, freshInstance] (fun _ => true) 2
      (fun _ => some freshInstance) = .error freshInstance ∧
    (∀ (i : InstanceState) (mid : String) (b : Bool),
      probeIdle i mid b = if b then .neverSettles else .returnsFalse) ∧
    performHealthCheck [] (fun _ => true) 3 (fun _ => some freshInstance) =
      .ok [freshInstance, freshInstance, freshInstance] := by
  exact ⟨rfl, probeIdle_spec, rfl⟩

/-- Claim C8: a result or error message whose correlation id matches a
pending call settles exactly that call: the timer is cleared and the
entry deleted (pending count drops by one, other ids untouched); a
result increments the execution count, sets status idle, updates
last-used and fulfills the caller with the payload; an error increments
the error count and rejects the caller with the remote name, message and
stack; a message with an unknown correlation id changes nothing and is
ignored. -/
theorem c8_message_settlement (s : InstanceState) (now : Nat)
    (m : WorkerMessage) (hk : (s.pendingMessages.map Prod.fst).Nodup) :
    (lookupPending s.pendingMessages m.id = none →
      handleWorkerMessage s now m = (s, none)) ∧
    (∀ k, lookupPending s.pendingMessages m.id = some k →
      m.type = .result →
      handleWorkerMessage s now m =
        ({ s with pendingMessages := erasePending s.pendingMessages m.id
                  status := .idle
                  executionCount := s.executionCount + 1
                  lastUsed := now },
         some (.fulfilled m.result)) ∧
      (handleWorkerMessage s now m).1.pendingMessages.length + 1 =
        s.pendingMessages.length ∧
      lookupPending (handleWorkerMessage s now m).1.pendingMessages m.id =
        none ∧
      (∀ id2, id2 ≠ m.id →
        lookupPending (handleWorkerMessage s now m).1.pendingMessages id2 =
          lookupPending s.pendingMessages id2)) ∧
    (∀ k, lookupPending s.pendingMessages m.id = some k →
      m.type = .error →
      handleWorkerMessage s now m =
        ({ s with pendingMessages := erasePending s.pendingMessages m.id
                  status := .idle
                  errorCount := s.errorCount + 1 },
         some (.rejectedWith
           (jsOrDefault (m.error.bind (fun e => e.name)) "WorkerError")
           (jsOrDefault (m.error.bind (fun e => e.message))
             "Worker execution failed")
           (m.error.bind (fun e => e.stack)))) ∧
      (handleWorkerMessage s now m).1.pendingMessages.length + 1 =
        s.pendingMessages.length ∧
      lookupPending (handleWorkerMessage s now m).1.pendingMessages m.id =
        none) := by
  refine ⟨?_, ?_, ?_⟩
  · intro h
    simp [handleWorkerMessage, h]
  · intro k hl ht
    have he : handleWorkerMessage s now m =
        ({ s with pendingMessages := erasePending s.pendingMessages m.id
                  status := .idle
                  executionCount := s.executionCount + 1
                  lastUsed := now },
         some (.fulfilled m.result)) := by
      simp [handleWorkerMessage, hl, ht]
    refine ⟨he, ?_, ?_, ?_⟩
    · rw [he]
      exact length_erase_of_lookup_some _ _ _ hl
    · rw [he]
      exact lookupPending_erase_self _ _ hk
    · intro id2 h2
      rw [he]
      exact lookupPending_erase_ne _ _ _ (fun e => h2 e.symm)
  · intro k hl ht
    have he : handleWorkerMessage s now m =
        ({ s with pendingMessages := erasePending s.pendingMessages m.id
                  status := .idle
                  errorCount := s.errorCount + 1 },
         some (.rejectedWith
           (jsOrDefault (m.error.bind (fun e => e.name)) "WorkerError")
           (jsOrDefault (m.error.bind (fun e => e.message))
             "Worker execution failed")
           (m.error.bind (fun e => e.stack)))) := by
      simp [handleWorkerMessage, hl, ht]
    refine ⟨he, ?_, ?_⟩
    · rw [he]
      exact length_erase_of_lookup_some _ _ _ hl
    · rw [he]
      exact lookupPending_erase_self _ _ hk

/-- Witness for C8: a result message for the first of two pending calls
fulfills exactly that call with its payload and leaves the other
pending. -/
theorem c8_message_settlement_witness :
    (handleWorkerMessage twoPendingState 5
      (resultMessage "call-a" "out" 5)).2 = some (.fulfilled (some "out")) ∧
    (handleWorkerMessage twoPendingState 5
      (resultMessage "call-a" "out" 5)).1.pendingMessages =
      [("call-b", .execCall)] ∧
    (handleWorkerMessage twoPendingState 5
      (resultMessage "call-a" "out" 5)).1.executionCount = 1 := by
  have h := ((c8_message_settlement twoPendingState 5
    (resultMessage "call-a" "out" 5) (by decide)).2.1 .execCall
    (by decide) rfl).1
  refine ⟨by rw [h]; rfl, by rw [h]; rfl, by rw [h]; rfl⟩

end NestjsWorker
